import Mathlib

/-!
Shallow embedding of the Flowlab Launcher (`src/main.py`), a tkinter desktop
application that scans a `games/` directory for `.exe` files, uploads
files/folders into it, launches a companion modding executable, polls whether
that executable is running, and offers play/delete/rename actions on the
discovered games.

Modelling conventions:
* Paths are Lean `String`s; `os.path.join` is modelled with a `/` separator
  (`pjoin`), and `basename`/`dirname`/`relpath`/`normpath`/`isabs` operate on
  that separator, mirroring the POSIX behaviour of the `os.path` functions the
  code calls.
* Python string methods (`lower`, `endswith`, `startswith`, `in`) are embedded
  as executable functions over the character list of a `String`.
* The filesystem tree walked by `os.walk` is an inductive tree `FS`; `walk`
  reproduces the top-down traversal order of `os.walk` as the list of
  `(dirpath, filenames)` pairs that `scan_games` consumes.
* Results of external calls (dialogs, copy/spawn/remove/rename failures,
  `os.path.exists`, psutil / `tasklist` output) are inputs to the embedded
  functions: a `try`/`except` around a fallible OS call becomes a case split
  on an `Option`/`Except`-valued outcome.
* GUI effects (listbox contents, label text, modal dialogs, spawned
  processes) are returned as data.
-/

namespace Flowlab

/-! ## Python string primitives -/

/-- `str.lower` on one character: ASCII letters are mapped to lower case
(sufficient for the ASCII file names and constants the program handles). -/
def lowerChar (c : Char) : Char :=
  if 65 ≤ c.toNat ∧ c.toNat ≤ 90 then Char.ofNat (c.toNat + 32) else c

/-- Python `str.lower()`. -/
def strLower (s : String) : String := String.mk (s.data.map lowerChar)

/-- Python `str.endswith(post)`. -/
def strEndsWith (s post : String) : Bool := post.data.isSuffixOf s.data

/-- Python `str.startswith(pre)` (used to model `os.path.isabs`). -/
def strStartsWith (s pre : String) : Bool := pre.data.isPrefixOf s.data

/-- Substring membership on character lists, for Python `needle in hay`. -/
def seqContains (needle : List Char) : List Char → Bool
  | [] => needle.isEmpty
  | c :: rest => needle.isPrefixOf (c :: rest) || seqContains needle rest

/-- Python `needle in hay` on strings. -/
def strContains (hay needle : String) : Bool := seqContains needle.data hay.data

/-! ## `os.path` primitives -/

/-- `os.path.join a b` with a single separator. -/
def pjoin (a b : String) : String := a ++ "/" ++ b

/-- `os.path.basename`: the part after the last separator. -/
def basename (p : String) : String :=
  String.mk ((p.data.reverse.takeWhile (fun c => c ≠ '/')).reverse)

/-- `os.path.dirname`: the part before the last separator (empty if none). -/
def dirname (p : String) : String :=
  String.mk (((p.data.reverse.dropWhile (fun c => c ≠ '/')).drop 1).reverse)

/-- `os.path.normpath`, restricted to what the code needs: stripping trailing
separators from the folder path returned by the directory-picker dialog. -/
def normpath (p : String) : String :=
  String.mk ((p.data.reverse.dropWhile (fun c => c = '/')).reverse)

/-- `os.path.isabs`. -/
def isabs (p : String) : Bool := strStartsWith p "/"

/-- `os.path.relpath p base` for the launcher's uses: every path handed to it
lies beneath `base`, so the result strips the `base + separator` prefix;
other inputs are returned unchanged. -/
def relpath (p base : String) : String :=
  if strStartsWith p (base ++ "/") then String.mk (p.data.drop (base.data.length + 1))
  else p

/-! ## Config / constants (`src/main.py` lines 9-12) -/

def MODDER_EXE : String := "FlowlabModdingUtility.exe"
def GAMES_FOLDER_NAME : String := "games"
def MODDED_EXT : String := ".exe"
def STATUS_POLL_MS : Nat := 2000

/-! ## Filesystem tree and `os.walk` -/

mutual
/-- A directory: named subdirectories and file names, in listing order. -/
inductive FS where
  | mk : List DirEnt → List String → FS
/-- One subdirectory entry. -/
inductive DirEnt where
  | mk : String → FS → DirEnt
end

def FS.subdirs : FS → List DirEnt
  | .mk ds _ => ds

def FS.files : FS → List String
  | .mk _ fs => fs

mutual
/-- `os.walk root`: the top-down sequence of `(dirpath, filenames)` pairs
(the `dirs` component is unused by `scan_games` and omitted). -/
def walk (root : String) : FS → List (String × List String)
  | .mk subdirs files => (root, files) :: walkDirs root subdirs

def walkDirs (root : String) : List DirEnt → List (String × List String)
  | [] => []
  | .mk name d :: rest => walk (pjoin root name) d ++ walkDirs root rest
end

/-! ## `scan_games` (lines 135-155) -/

/-- The collection loop of `scan_games`: for each walked directory, every file
name whose lower-cased form ends with `MODDED_EXT` is joined to its directory
path and appended. -/
def collectGames : List (String × List String) → List String
  | [] => []
  | (root, files) :: rest =>
      (files.filter (fun fname => strEndsWith (strLower fname) MODDED_EXT)).map
        (fun fname => pjoin root fname) ++ collectGames rest

/-- The sort key of `scan_games`: `os.path.relpath(p, base_dir).lower()`,
compared as Python compares strings (lexicographically by code point). -/
def scanKey (baseDir p : String) : List Char := (strLower (relpath p baseDir)).data

/-- The UI state touched by `scan_games`. -/
structure LState where
  games : List String
  gamesListbox : List String
  moddedListbox : List String
deriving DecidableEq, Repr

/-- Placeholder row inserted when no game is found. -/
def NO_GAMES_ROW : String := "(No games found in games/)"

/-- `FlowlabLauncher.scan_games`: clear the games list and both listboxes,
collect `.exe` files from a recursive walk of `games_dir`, sort them by
lower-cased path relative to `base_dir` (Python's stable `list.sort`,
embedded as insertion sort with the same comparison), then repopulate the
listboxes with paths relative to `base_dir`, or a placeholder row if empty. -/
def scan_games (baseDir gamesDir : String) (fs : FS) (_s : LState) : LState :=
  let found := collectGames (walk gamesDir fs)
  let sorted := List.insertionSort (fun a b => scanKey baseDir a ≤ scanKey baseDir b) found
  if sorted.isEmpty then
    { games := sorted, gamesListbox := [NO_GAMES_ROW], moddedListbox := [] }
  else
    { games := sorted,
      gamesListbox := sorted.map (fun p => relpath p baseDir),
      moddedListbox := sorted.map (fun p => relpath p baseDir) }

/-! ## `is_process_running` (lines 21-35) -/

/-- Outcome of the `psutil.process_iter` enumeration: a raised exception, or
the list of process names (`p.info.get("name")`, possibly `None`). -/
def PsutilOutcome := Except Unit (List (Option String))

/-- Outcome of `subprocess.check_output(["tasklist"])`. -/
def TasklistOutcome := Except Unit String

/-- The psutil loop: does any non-`None` process name lower-case to
`exeLower`? -/
def psutilFinds (exeLower : String) (names : List (Option String)) : Bool :=
  names.any (fun n => match n with
    | some name => strLower name == exeLower
    | none => false)

/-- `is_process_running`: lower-case the name, try the psutil enumeration
(returning `True` on a match, swallowing any exception), then fall through to
`tasklist` substring search, returning `False` if that also fails. -/
def is_process_running (exeName : String) (ps : PsutilOutcome)
    (tl : TasklistOutcome) : Bool :=
  let exe := strLower exeName
  let psHit := match ps with
    | .ok names => psutilFinds exe names
    | .error _ => false
  if psHit then true
  else
    match tl with
    | .ok out => strContains (strLower out) exe
    | .error _ => false

/-! ## `safe_copy_file` / `upload_files` (lines 37-39, 158-168) -/

/-- File contents by path; `none` means the path does not exist. -/
def FileMap := String → Option String

/-- One `safe_copy_file src dst` call: `os.makedirs(dirname dst, exist_ok=True)`
followed by `shutil.copy2(src, dst)`. -/
structure CopyFileCall where
  src : String
  dst : String
  mkdirs : String
deriving DecidableEq, Repr

def safe_copy_file (src dst : String) : CopyFileCall :=
  { src := src, dst := dst, mkdirs := dirname dst }

/-- Effect of a successful `shutil.copy2`: the destination now holds the
source's content, overwriting whatever was there. -/
def applyCopy (m : FileMap) (c : CopyFileCall) : FileMap :=
  fun q => if q = c.dst then m c.src else m q

/-- The `for src in files` loop of `upload_files`: each copy is tried on its
own; a failure (oracle `copyFails`) shows an error dialog and moves on to the
next file. Returns the successful calls in order, the dialogs in order, and
the resulting file contents. -/
def uploadLoop (gamesDir : String) (copyFails : String → Option String) :
    FileMap → List String → List CopyFileCall × List String × FileMap
  | m, [] => ([], [], m)
  | m, src :: rest =>
      let dst := pjoin gamesDir (basename src)
      match copyFails src with
      | none =>
          let c := safe_copy_file src dst
          let r := uploadLoop gamesDir copyFails (applyCopy m c) rest
          (c :: r.1, r.2.1, r.2.2)
      | some e =>
          let r := uploadLoop gamesDir copyFails m rest
          (r.1, ("Failed to copy " ++ src ++ ":\n" ++ e) :: r.2.1, r.2.2)

structure UploadFilesResult where
  calls : List CopyFileCall
  dialogs : List String
  contents : FileMap
  rescanned : Bool

/-- `FlowlabLauncher.upload_files`: if the file dialog returned nothing,
return; otherwise copy each selected file to `games_dir/basename(src)`,
surfacing each failure as its own dialog, then rescan. -/
def upload_files (gamesDir : String) (copyFails : String → Option String)
    (m : FileMap) (files : List String) : UploadFilesResult :=
  if files = [] then ⟨[], [], m, false⟩
  else
    let r := uploadLoop gamesDir copyFails m files
    ⟨r.1, r.2.1, r.2.2, true⟩

/-! ## `safe_copy_folder` / `upload_folder` (lines 41-45, 170-180) -/

/-- One `shutil.copytree` call; `dirsExistOk` records whether
`dirs_exist_ok=True` (merge into an existing destination) was passed. -/
structure CopyTreeCall where
  src : String
  dst : String
  dirsExistOk : Bool
deriving DecidableEq, Repr

/-- `safe_copy_folder`: merge when the destination exists, plain copy
otherwise. -/
def safe_copy_folder (existsP : String → Bool) (src dst : String) : CopyTreeCall :=
  if existsP dst then { src := src, dst := dst, dirsExistOk := true }
  else { src := src, dst := dst, dirsExistOk := false }

structure UploadFolderResult where
  call : Option CopyTreeCall
  dialog : Option String
  rescanned : Bool
deriving DecidableEq, Repr

/-- `FlowlabLauncher.upload_folder`: `askdirectory` returns `""` when
cancelled (`if not src: return`); otherwise the folder is copied to
`games_dir/basename(normpath(src))` (failure becomes a dialog) and a rescan
runs either way. -/
def upload_folder (gamesDir : String) (existsP : String → Bool)
    (copyFails : Option String) (src : String) : UploadFolderResult :=
  if src = "" then ⟨none, none, false⟩
  else
    let dst := pjoin gamesDir (basename (normpath src))
    let call := safe_copy_folder existsP src dst
    match copyFails with
    | none => ⟨some call, none, true⟩
    | some e => ⟨some call, some ("Failed to copy folder:\n" ++ e), true⟩

/-! ## `launch_modder` (lines 183-204) -/

/-- One `subprocess.Popen([exe], cwd=cwd)` call. -/
structure SpawnCall where
  exe : String
  cwd : String
deriving DecidableEq, Repr

/-- `FlowlabLauncher._modder_path`. -/
def modder_path (baseDir : String) : String := pjoin baseDir MODDER_EXE

structure LaunchResult where
  spawn : Option SpawnCall
  dialog : Option String
  labelSetRunning : Bool
deriving DecidableEq, Repr

/-- `FlowlabLauncher.launch_modder`: error dialog and no spawn when the
modder executable is missing; otherwise `Popen` in `base_dir` (a spawn
failure, oracle `spawnFails`, becomes a dialog). -/
def launch_modder (baseDir : String) (existsP : String → Bool)
    (spawnFails : Option String) : LaunchResult :=
  if existsP (modder_path baseDir) then
    match spawnFails with
    | none => ⟨some ⟨modder_path baseDir, baseDir⟩, none, true⟩
    | some e =>
        ⟨some ⟨modder_path baseDir, baseDir⟩,
          some ("Failed to launch modder:\n" ++ e), false⟩
  else
    ⟨none, some (MODDER_EXE ++ " not found in launcher folder:\n" ++ modder_path baseDir),
      false⟩

/-! ## `_get_selected_game` / `play_selected_game` (lines 207-238) -/

/-- `FlowlabLauncher._get_selected_game`: `None` when the listbox has no
selection or the selected row index is out of range of `self.games`,
otherwise `self.games[idx]`. `sel` is the `curselection()` tuple. -/
def get_selected_game (sel : List Nat) (games : List String) : Option String :=
  match sel with
  | [] => none
  | idx :: _ =>
      if h : idx < games.length then some (games.get ⟨idx, h⟩) else none

/-- The shared display-row resolution of the modded-listbox actions
(play-from-modded lines 225-228, delete lines 246-249): join the row to
`base_dir` unless absolute; if that path does not exist, fall back to the
first in-memory game whose relative path or basename matches. -/
def resolveDisplay (baseDir : String) (games : List String)
    (existsP : String → Bool) (display : String) : Option String :=
  let full := if isabs display then display else pjoin baseDir display
  if existsP full then some full
  else
    match games.filter (fun p =>
        relpath p baseDir == display || basename p == basename display) with
    | [] => none
    | m :: _ => some m

structure PlayResult where
  spawn : Option SpawnCall
  warning : Option String
  dialog : Option String
deriving DecidableEq, Repr

/-- Lines 232-238 of `play_selected_game`: `if not full or not
os.path.exists(full)` shows "Selected game not found."; otherwise `Popen`
with the game's own directory as cwd (spawn failure becomes a dialog). -/
def playTail (existsP : String → Bool) (spawnFails : String → Option String) :
    Option String → PlayResult
  | none => ⟨none, none, some "Selected game not found."⟩
  | some full =>
      if full = "" ∨ existsP full = false then
        ⟨none, none, some "Selected game not found."⟩
      else
        match spawnFails full with
        | none => ⟨some ⟨full, dirname full⟩, none, none⟩
        | some e => ⟨some ⟨full, dirname full⟩, none, some ("Failed to launch game:\n" ++ e)⟩

/-- `FlowlabLauncher.play_selected_game`: the modded branch reads the
selected row (`moddedSelRow`, `none` when nothing is selected) and resolves
it; the main branch uses `_get_selected_game` on the games listbox. -/
def play_selected_game (baseDir : String) (games : List String)
    (existsP : String → Bool) (spawnFails : String → Option String)
    (fromModded : Bool) (gamesSel : List Nat) (moddedSelRow : Option String) :
    PlayResult :=
  if fromModded then
    match moddedSelRow with
    | none => ⟨none, some "No game selected.", none⟩
    | some display =>
        playTail existsP spawnFails (resolveDisplay baseDir games existsP display)
  else
    playTail existsP spawnFails (get_selected_game gamesSel games)

/-! ## `delete_selected_game` (lines 240-260) -/

/-- `os.remove` on a set of existing files: fails when the path does not
exist, and may fail for another OS reason (oracle `removeFails`). -/
def os_remove (fs : List String) (removeFails : String → Option String)
    (full : String) : Except String (List String) :=
  if full ∈ fs then
    match removeFails full with
    | none => .ok (fs.erase full)
    | some e => .error e
  else .error ("FileNotFoundError: " ++ full)

structure DeleteResult where
  fs : List String
  warning : Option String
  dialog : Option String
  removed : Option String
  rescanned : Bool

/-- `FlowlabLauncher.delete_selected_game`: warn when nothing is selected;
resolve the row (error dialog when unresolvable); ask for confirmation and
return silently when declined; otherwise `os.remove` the resolved path and
rescan, turning a removal failure into a dialog. -/
def delete_selected_game (baseDir : String) (games fs : List String)
    (removeFails : String → Option String) (selRow : Option String)
    (confirm : Bool) : DeleteResult :=
  match selRow with
  | none => ⟨fs, some "No game selected.", none, none, false⟩
  | some display =>
      match resolveDisplay baseDir games (fun p => fs.contains p) display with
      | none => ⟨fs, none, some "Could not resolve selected game path.", none, false⟩
      | some full =>
          if full = "" then
            ⟨fs, none, some "Could not resolve selected game path.", none, false⟩
          else if confirm then
            match os_remove fs removeFails full with
            | .ok fs2 => ⟨fs2, none, none, some full, true⟩
            | .error e => ⟨fs, none, some ("Failed to delete:\n" ++ e), none, false⟩
          else ⟨fs, none, none, none, false⟩

/-! ## `rename_selected_game` (lines 262-284) -/

/-- `os.rename` on a set of existing files: the source must exist, and the
OS may refuse for another reason (oracle `renameFails`). -/
def os_rename (fs : List String) (renameFails : String → String → Option String)
    (src dst : String) : Except String (List String) :=
  if fs.contains src then
    match renameFails src dst with
    | none => .ok (fs.map (fun p => if p = src then dst else p))
    | some e => .error e
  else .error ("FileNotFoundError: " ++ src)

structure RenameResult where
  fs : List String
  warning : Option String
  dialog : Option String
  renamed : Option (String × String)
  rescanned : Bool

/-- `FlowlabLauncher.rename_selected_game`: resolve the selected row through
the in-memory matches only; reject a cancelled/empty dialog silently and a
name without a `.exe` suffix with a dialog; otherwise rename inside the
file's own directory and rescan (failure becomes a dialog). -/
def rename_selected_game (baseDir : String) (games fs : List String)
    (renameFails : String → String → Option String)
    (selRow : Option String) (newNameInput : Option String) : RenameResult :=
  match selRow with
  | none => ⟨fs, some "No game selected.", none, none, false⟩
  | some display =>
      match games.filter (fun p =>
          relpath p baseDir == display || basename p == basename display) with
      | [] => ⟨fs, none, some "Could not resolve selected game path.", none, false⟩
      | full :: _ =>
          if full = "" ∨ fs.contains full = false then
            ⟨fs, none, some "Could not resolve selected game path.", none, false⟩
          else
            match newNameInput with
            | none => ⟨fs, none, none, none, false⟩
            | some newName =>
                if newName = "" then ⟨fs, none, none, none, false⟩
                else if strEndsWith (strLower newName) ".exe" = false then
                  ⟨fs, none, some "Filename must end with .exe", none, false⟩
                else
                  let newPath := pjoin (dirname full) newName
                  match os_rename fs renameFails full newPath with
                  | .ok fs2 => ⟨fs2, none, none, some (full, newPath), true⟩
                  | .error e => ⟨fs, none, some ("Failed to rename:\n" ++ e), none, false⟩

/-! ## `_update_modder_label` / `_poll_modder_status` (lines 186-193) -/

/-- `FlowlabLauncher._update_modder_label`: the exact label text set. -/
def update_modder_label (running : Bool) : String :=
  "Modder status: " ++ (if running then "running" else "not running")

structure PollResult where
  label : String
  scheduled : Option Nat
deriving DecidableEq, Repr

/-- `FlowlabLauncher._poll_modder_status`: one callback run — check whether
`FlowlabModdingUtility.exe` is running, set the label, and unconditionally
schedule the next run via `after(STATUS_POLL_MS, ...)`. -/
def poll_modder_status (ps : PsutilOutcome) (tl : TasklistOutcome) : PollResult :=
  { label := update_modder_label (is_process_running MODDER_EXE ps tl),
    scheduled := some STATUS_POLL_MS }

/-- The poller's infinite trace: the n-th callback run against the n-th
observation of the process environment. Defined because every run schedules
run n+1; nothing in the program cancels the `after` chain. -/
def pollTrace (env : Nat → PsutilOutcome × TasklistOutcome) (n : Nat) : PollResult :=
  poll_modder_status (env n).1 (env n).2

/-! ## Helper lemmas -/

/-- The games list produced by `scan_games` does not depend on the branch
that populates the listboxes. -/
theorem scan_games_games (baseDir gamesDir : String) (fs : FS) (s : LState) :
    (scan_games baseDir gamesDir fs s).games =
      List.insertionSort (fun a b => scanKey baseDir a ≤ scanKey baseDir b)
        (collectGames (walk gamesDir fs)) := by
  unfold scan_games
  dsimp only
  split <;> rfl

/-- Membership in the collection loop's output: exactly the walked file
names that end (case-insensitively) in `MODDED_EXT`, joined to their
directory. -/
theorem mem_collectGames (l : List (String × List String)) (p : String) :
    p ∈ collectGames l ↔
      ∃ rf ∈ l, ∃ fname ∈ rf.2,
        strEndsWith (strLower fname) MODDED_EXT = true ∧ p = pjoin rf.1 fname := by
  induction l with
  | nil => simp [collectGames]
  | cons hd tl ih =>
      obtain ⟨root, files⟩ := hd
      simp only [collectGames, List.mem_append, List.mem_map, List.mem_filter, ih,
        List.mem_cons]
      constructor
      · rintro (⟨fname, ⟨hf, he⟩, hp⟩ | ⟨rf, hrf, fname, hf, he, hp⟩)
        · exact ⟨(root, files), Or.inl rfl, fname, hf, he, hp.symm⟩
        · exact ⟨rf, Or.inr hrf, fname, hf, he, hp⟩
      · rintro ⟨rf, hrf | hrf, fname, hf, he, hp⟩
        · exact Or.inl ⟨fname, ⟨by simpa [hrf] using hf, by simpa [hrf] using he⟩,
            by simp [hrf, hp]⟩
        · exact Or.inr ⟨rf, hrf, fname, hf, he, hp⟩

/-! ## Claims -/

/-- C1: Every scan rebuilds the games list from scratch: `scan_games` first
empties the in-memory list and both listboxes (so the result is independent
of any previous state), then recursively walks `base_dir/games` and collects
exactly those files whose names end, case-insensitively, with ".exe"; no
entry from a previous scan survives unless rediscovered by the walk. -/
theorem scan_games_rebuilds_from_scratch
    (baseDir : String) (fs : FS) (s1 s2 : LState) :
    scan_games baseDir (pjoin baseDir GAMES_FOLDER_NAME) fs s1 =
      scan_games baseDir (pjoin baseDir GAMES_FOLDER_NAME) fs s2 ∧
    ∀ p, p ∈ (scan_games baseDir (pjoin baseDir GAMES_FOLDER_NAME) fs s1).games ↔
      ∃ rf ∈ walk (pjoin baseDir GAMES_FOLDER_NAME) fs, ∃ fname ∈ rf.2,
        strEndsWith (strLower fname) MODDED_EXT = true ∧ p = pjoin rf.1 fname := by
  constructor
  · rfl
  · intro p
    rw [scan_games_games,
      (List.perm_insertionSort (fun a b => scanKey baseDir a ≤ scanKey baseDir b)
        (collectGames (walk (pjoin baseDir GAMES_FOLDER_NAME) fs))).mem_iff]
    exact mem_collectGames _ p

/-- C2: For every game discovered by a scan, the row shown in each listbox is
the game's path relative to the base directory, row i corresponding to
element i of the games list (when at least one game was found), and the games
list is sorted by lower-cased relative path. -/
theorem scan_games_display_rows
    (baseDir gamesDir : String) (fs : FS) (s : LState)
    (h : (scan_games baseDir gamesDir fs s).games ≠ []) :
    (scan_games baseDir gamesDir fs s).gamesListbox =
      (scan_games baseDir gamesDir fs s).games.map (fun p => relpath p baseDir) ∧
    (scan_games baseDir gamesDir fs s).moddedListbox =
      (scan_games baseDir gamesDir fs s).games.map (fun p => relpath p baseDir) ∧
    (∀ i : Nat, (scan_games baseDir gamesDir fs s).gamesListbox[i]? =
      ((scan_games baseDir gamesDir fs s).games[i]?).map (fun p => relpath p baseDir)) ∧
    List.Sorted (fun a b => scanKey baseDir a ≤ scanKey baseDir b)
      (scan_games baseDir gamesDir fs s).games := by
  have hTot : IsTotal String (fun a b => scanKey baseDir a ≤ scanKey baseDir b) :=
    ⟨fun a b => le_total _ _⟩
  have hTrans : IsTrans String (fun a b => scanKey baseDir a ≤ scanKey baseDir b) :=
    ⟨fun a b c => le_trans⟩
  have hsorted : List.Sorted (fun a b => scanKey baseDir a ≤ scanKey baseDir b)
      (scan_games baseDir gamesDir fs s).games := by
    rw [scan_games_games]
    exact List.sorted_insertionSort _ _
  have hbranch : (scan_games baseDir gamesDir fs s).gamesListbox =
        (scan_games baseDir gamesDir fs s).games.map (fun p => relpath p baseDir) ∧
      (scan_games baseDir gamesDir fs s).moddedListbox =
        (scan_games baseDir gamesDir fs s).games.map (fun p => relpath p baseDir) := by
    revert h
    unfold scan_games
    dsimp only
    split
    · rename_i hempty
      intro h
      exact absurd (List.isEmpty_iff.mp hempty) h
    · intro _
      exact ⟨rfl, rfl⟩
  refine ⟨hbranch.1, hbranch.2, ?_, hsorted⟩
  intro i
  rw [hbranch.1, List.getElem?_map]

/-- Witness for C2 at a concrete tree containing one game. -/
theorem scan_games_display_rows_witness :
    (scan_games "base" "base/games" (FS.mk [] ["a.exe"]) ⟨[], [], []⟩).games ≠ [] ∧
    (scan_games "base" "base/games" (FS.mk [] ["a.exe"]) ⟨[], [], []⟩).gamesListbox =
      (scan_games "base" "base/games" (FS.mk [] ["a.exe"]) ⟨[], [], []⟩).games.map
        (fun p => relpath p "base") :=
  ⟨by decide, (scan_games_display_rows "base" "base/games" (FS.mk [] ["a.exe"])
      ⟨[], [], []⟩ (by decide)).1⟩

/-- Whatever `playTail` spawns has the spawned executable's own directory as
its working directory. -/
theorem playTail_spawn_cwd (existsP : String → Bool) (sf : String → Option String)
    (o : Option String) (call : SpawnCall)
    (h : (playTail existsP sf o).spawn = some call) : call.cwd = dirname call.exe := by
  cases o with
  | none => simp [playTail] at h
  | some full =>
      simp only [playTail] at h
      by_cases hc : full = "" ∨ existsP full = false
      · rw [if_pos hc] at h
        simp at h
      · rw [if_neg hc] at h
        cases hsf : sf full with
        | none =>
            rw [hsf] at h
            cases h
            rfl
        | some e =>
            rw [hsf] at h
            cases h
            rfl

/-- C3: Process spawning uses per-target working directories: `launch_modder`
spawns `base_dir/FlowlabModdingUtility.exe` with working directory `base_dir`
(and only if that path exists, otherwise it shows an error and spawns
nothing), while playing a selected game spawns the resolved game executable
with its own containing directory as working directory. -/
theorem launch_play_spawn_dirs :
    (∀ baseDir existsP sf, existsP (pjoin baseDir MODDER_EXE) = true →
      (launch_modder baseDir existsP sf).spawn =
        some { exe := pjoin baseDir MODDER_EXE, cwd := baseDir }) ∧
    (∀ baseDir existsP sf, existsP (pjoin baseDir MODDER_EXE) = false →
      (launch_modder baseDir existsP sf).spawn = none ∧
      (launch_modder baseDir existsP sf).dialog =
        some (MODDER_EXE ++ " not found in launcher folder:\n" ++
          pjoin baseDir MODDER_EXE)) ∧
    (∀ existsP sf full, full ≠ "" → existsP full = true → sf full = none →
      playTail existsP sf (some full) =
        { spawn := some { exe := full, cwd := dirname full },
          warning := none, dialog := none }) ∧
    (∀ baseDir games existsP sf fm gs ms call,
      (play_selected_game baseDir games existsP sf fm gs ms).spawn = some call →
      call.cwd = dirname call.exe) := by
  refine ⟨?_, ?_, ?_, ?_⟩
  · intro baseDir existsP sf h
    simp only [launch_modder, modder_path] at h ⊢
    rw [if_pos h]
    cases sf <;> rfl
  · intro baseDir existsP sf h
    simp only [launch_modder, modder_path] at h ⊢
    rw [if_neg (by simp [h])]
    exact ⟨rfl, rfl⟩
  · intro existsP sf full h1 h2 h3
    simp only [playTail]
    rw [if_neg (by simp [h1, h2]), h3]
  · intro baseDir games existsP sf fm gs ms call h
    unfold play_selected_game at h
    cases fm with
    | false =>
        rw [if_neg (by simp)] at h
        exact playTail_spawn_cwd _ _ _ _ h
    | true =>
        rw [if_pos rfl] at h
        cases ms with
        | none => simp at h
        | some display => exact playTail_spawn_cwd _ _ _ _ h

/-- Witness for C3: with the modder executable present and the spawn
succeeding, the spawn call targets `base/FlowlabModdingUtility.exe` with cwd
`base`. -/
theorem launch_play_spawn_dirs_witness :
    (fun _ => true : String → Bool) (pjoin "base" MODDER_EXE) = true ∧
    (launch_modder "base" (fun _ => true) none).spawn =
      some { exe := pjoin "base" MODDER_EXE, cwd := "base" } :=
  ⟨rfl, launch_play_spawn_dirs.1 "base" (fun _ => true) none rfl⟩

/-- C5: The status poller is a self-rescheduling periodic callback: every
`STATUS_POLL_MS` (2000 ms) it checks whether `FlowlabModdingUtility.exe` is
running, sets the label to exactly "Modder status: running" or
"Modder status: not running", and always schedules itself again — on every
run of the infinite trace, whatever the process environment does. -/
theorem poll_status_spec :
    STATUS_POLL_MS = 2000 ∧
    (∀ ps tl, (poll_modder_status ps tl).scheduled = some STATUS_POLL_MS) ∧
    (∀ ps tl, is_process_running MODDER_EXE ps tl = true →
      (poll_modder_status ps tl).label = "Modder status: running") ∧
    (∀ ps tl, is_process_running MODDER_EXE ps tl = false →
      (poll_modder_status ps tl).label = "Modder status: not running") ∧
    (∀ env n, (pollTrace env n).scheduled = some STATUS_POLL_MS) := by
  refine ⟨rfl, fun ps tl => rfl, ?_, ?_, fun env n => rfl⟩
  · intro ps tl h
    show update_modder_label (is_process_running MODDER_EXE ps tl) = _
    rw [h]
    rfl
  · intro ps tl h
    show update_modder_label (is_process_running MODDER_EXE ps tl) = _
    rw [h]
    rfl

/-- Witness for C5: a psutil enumeration listing the modder process yields
the "running" label. -/
theorem poll_status_spec_witness :
    is_process_running MODDER_EXE
      (Except.ok [some "flowlabmoddingutility.EXE"]) (Except.error ()) = true ∧
    (poll_modder_status (Except.ok [some "flowlabmoddingutility.EXE"])
      (Except.error ())).label = "Modder status: running" :=
  ⟨by decide, poll_status_spec.2.2.1 _ _ (by decide)⟩

/-- C8: `is_process_running` is total: its only outcomes are `true` and
`false`; a psutil enumeration failure behaves exactly like an enumeration
that found nothing (falling through to the `tasklist` check), and when
`tasklist` also fails the result is `false`. -/
theorem is_process_running_total :
    (∀ name, is_process_running name (Except.error ()) (Except.error ()) = false) ∧
    (∀ name tl, is_process_running name (Except.error ()) tl =
      is_process_running name (Except.ok []) tl) ∧
    (∀ name ps tl,
      is_process_running name ps tl = true ∨ is_process_running name ps tl = false) :=
  ⟨fun _ => rfl, fun _ _ => rfl, fun name ps tl => by
    cases h : is_process_running name ps tl
    · exact Or.inr rfl
    · exact Or.inl rfl⟩

/-- A file whose copy succeeds contributes its `safe_copy_file` call, no
matter what happens to the other files in the loop. -/
theorem uploadLoop_calls_mem (gamesDir : String) (cf : String → Option String) :
    ∀ (files : List String) (m : FileMap) (src : String), src ∈ files →
      cf src = none →
      safe_copy_file src (pjoin gamesDir (basename src)) ∈
        (uploadLoop gamesDir cf m files).1 := by
  intro files
  induction files with
  | nil => intro m src h; simp at h
  | cons hd tl ih =>
      intro m src hmem hcf
      rcases List.mem_cons.mp hmem with heq | htl
      · subst heq
        simp only [uploadLoop, hcf]
        exact List.mem_cons_self _ _
      · cases hhd : cf hd with
        | none =>
            simp only [uploadLoop, hhd]
            exact List.mem_cons_of_mem _ (ih _ src htl hcf)
        | some e =>
            simp only [uploadLoop, hhd]
            exact ih _ src htl hcf

/-- A file whose copy fails contributes its error dialog, no matter what
happens to the other files in the loop. -/
theorem uploadLoop_dialogs_mem (gamesDir : String) (cf : String → Option String) :
    ∀ (files : List String) (m : FileMap) (src e : String), src ∈ files →
      cf src = some e →
      ("Failed to copy " ++ src ++ ":\n" ++ e) ∈
        (uploadLoop gamesDir cf m files).2.1 := by
  intro files
  induction files with
  | nil => intro m src e h; simp at h
  | cons hd tl ih =>
      intro m src e hmem hcf
      rcases List.mem_cons.mp hmem with heq | htl
      · subst heq
        simp only [uploadLoop, hcf]
        exact List.mem_cons_self _ _
      · cases hhd : cf hd with
        | none =>
            simp only [uploadLoop, hhd]
            exact ih _ src e htl hcf
        | some e2 =>
            simp only [uploadLoop, hhd]
            exact List.mem_cons_of_mem _ (ih _ src e htl hcf)

/-- Every call emitted by the upload loop is the `safe_copy_file` of one of
the selected files whose copy succeeded. -/
theorem uploadLoop_calls_shape (gamesDir : String) (cf : String → Option String) :
    ∀ (files : List String) (m : FileMap) (c : CopyFileCall),
      c ∈ (uploadLoop gamesDir cf m files).1 →
      ∃ src ∈ files, cf src = none ∧
        c = safe_copy_file src (pjoin gamesDir (basename src)) := by
  intro files
  induction files with
  | nil => intro m c h; simp [uploadLoop] at h
  | cons hd tl ih =>
      intro m c h
      cases hhd : cf hd with
      | none =>
          simp only [uploadLoop, hhd] at h
          rcases List.mem_cons.mp h with heq | htl
          · exact ⟨hd, List.mem_cons_self _ _, hhd, heq⟩
          · obtain ⟨src, hs, hc, he⟩ := ih _ c htl
            exact ⟨src, List.mem_cons_of_mem _ hs, hc, he⟩
      | some e =>
          simp only [uploadLoop, hhd] at h
          obtain ⟨src, hs, hc, he⟩ := ih _ c h
          exact ⟨src, List.mem_cons_of_mem _ hs, hc, he⟩

/-- Locations that are no successful file's destination are untouched by the
upload loop. -/
theorem uploadLoop_untouched (gamesDir : String) (cf : String → Option String) :
    ∀ (files : List String) (m : FileMap) (q : String),
      (∀ y ∈ files, cf y = none → pjoin gamesDir (basename y) ≠ q) →
      (uploadLoop gamesDir cf m files).2.2 q = m q := by
  intro files
  induction files with
  | nil => intro m q _; rfl
  | cons hd tl ih =>
      intro m q hq
      cases hhd : cf hd with
      | none =>
          simp only [uploadLoop, hhd]
          rw [ih _ q (fun y hy => hq y (List.mem_cons_of_mem _ hy))]
          unfold applyCopy safe_copy_file
          rw [if_neg]
          intro hcontra
          exact hq hd (List.mem_cons_self _ _) hhd hcontra.symm
      | some e =>
          simp only [uploadLoop, hhd]
          exact ih _ q (fun y hy => hq y (List.mem_cons_of_mem _ hy))

/-- When the selected files have pairwise distinct destinations and no source
lies at a destination, a successfully copied file's destination ends up
holding that file's (original) content — overwriting whatever was there. -/
theorem uploadLoop_overwrite (gamesDir : String) (cf : String → Option String) :
    ∀ (files : List String) (m : FileMap) (src : String),
      src ∈ files → cf src = none →
      (∀ y ∈ files, ∀ z ∈ files,
        pjoin gamesDir (basename y) = pjoin gamesDir (basename z) → y = z) →
      (∀ y ∈ files, ∀ z ∈ files, pjoin gamesDir (basename y) ≠ z) →
      (uploadLoop gamesDir cf m files).2.2 (pjoin gamesDir (basename src)) = m src := by
  intro files
  induction files with
  | nil => intro m src h; simp at h
  | cons hd tl ih =>
      intro m src hmem hcf hinj hsep
      cases hhd : cf hd with
      | some e =>
          have hsrc_tl : src ∈ tl := by
            rcases List.mem_cons.mp hmem with heq | htl
            · subst heq; rw [hcf] at hhd; cases hhd
            · exact htl
          simp only [uploadLoop, hhd]
          exact ih _ src hsrc_tl hcf
            (fun y hy z hz => hinj y (List.mem_cons_of_mem _ hy) z (List.mem_cons_of_mem _ hz))
            (fun y hy z hz => hsep y (List.mem_cons_of_mem _ hy) z (List.mem_cons_of_mem _ hz))
      | none =>
          simp only [uploadLoop, hhd]
          by_cases hsrc_tl : src ∈ tl
          · rw [ih _ src hsrc_tl hcf
              (fun y hy z hz => hinj y (List.mem_cons_of_mem _ hy) z (List.mem_cons_of_mem _ hz))
              (fun y hy z hz => hsep y (List.mem_cons_of_mem _ hy) z (List.mem_cons_of_mem _ hz))]
            unfold applyCopy safe_copy_file
            rw [if_neg]
            exact fun hcontra =>
              hsep hd (List.mem_cons_self _ _) src hmem hcontra.symm
          · have heq : src = hd := by
              rcases List.mem_cons.mp hmem with heq | htl
              · exact heq
              · exact absurd htl hsrc_tl
            subst heq
            rw [uploadLoop_untouched gamesDir cf tl _ _ ?hun]
            · unfold applyCopy safe_copy_file
              rw [if_pos rfl]
            · intro y hy hcfy hcontra
              have := hinj y (List.mem_cons_of_mem _ hy) src (List.mem_cons_self _ _) hcontra
              subst this
              exact hsrc_tl hy

/-- Complete case analysis of `delete_selected_game`: either nothing in the
filesystem changed (and nothing was removed, and no rescan ran), or the user
confirmed and exactly the resolved path was removed, followed by a rescan. -/
theorem delete_cases (baseDir : String) (games fs : List String)
    (rf : String → Option String) (selRow : Option String) (confirm : Bool) :
    ((delete_selected_game baseDir games fs rf selRow confirm).fs = fs ∧
      (delete_selected_game baseDir games fs rf selRow confirm).removed = none ∧
      (delete_selected_game baseDir games fs rf selRow confirm).rescanned = false) ∨
    (∃ full, (delete_selected_game baseDir games fs rf selRow confirm).removed = some full ∧
      (delete_selected_game baseDir games fs rf selRow confirm).fs = fs.erase full ∧
      full ∈ fs ∧
      (delete_selected_game baseDir games fs rf selRow confirm).rescanned = true ∧
      confirm = true ∧ full ≠ "" ∧
      ∃ display, selRow = some display ∧
        resolveDisplay baseDir games (fun p => fs.contains p) display = some full) := by
  cases selRow with
  | none => exact Or.inl ⟨rfl, rfl, rfl⟩
  | some display =>
      cases hres : resolveDisplay baseDir games (fun p => fs.contains p) display with
      | none =>
          simp only [delete_selected_game, hres]
          exact Or.inl ⟨trivial, trivial, trivial⟩
      | some full =>
          simp only [delete_selected_game, hres]
          by_cases hfull : full = ""
          · rw [if_pos hfull]
            exact Or.inl ⟨rfl, rfl, rfl⟩
          · rw [if_neg hfull]
            cases confirm with
            | false =>
                rw [if_neg (by simp)]
                exact Or.inl ⟨rfl, rfl, rfl⟩
            | true =>
                rw [if_pos rfl]
                by_cases hmem : full ∈ fs
                · cases hrf : rf full with
                  | none =>
                      rw [show os_remove fs rf full = Except.ok (fs.erase full) by
                        unfold os_remove; rw [if_pos hmem, hrf]]
                      exact Or.inr ⟨full, rfl, rfl, hmem, rfl, rfl, hfull, display, rfl, hres⟩
                  | some e =>
                      rw [show os_remove fs rf full = Except.error e by
                        unfold os_remove; rw [if_pos hmem, hrf]]
                      exact Or.inl ⟨rfl, rfl, rfl⟩
                · rw [show os_remove fs rf full = Except.error ("FileNotFoundError: " ++ full) by
                    unfold os_remove; rw [if_neg hmem]]
                  exact Or.inl ⟨rfl, rfl, rfl⟩

/-- Complete case analysis of `rename_selected_game`: either nothing changed
(no rename, no rescan), or the dialog input was a non-empty name ending
(case-insensitively) in ".exe" and the resolved file was renamed inside its
own directory, followed by a rescan. -/
theorem rename_cases (baseDir : String) (games fs : List String)
    (rnf : String → String → Option String) (selRow : Option String)
    (input : Option String) :
    ((rename_selected_game baseDir games fs rnf selRow input).fs = fs ∧
      (rename_selected_game baseDir games fs rnf selRow input).renamed = none ∧
      (rename_selected_game baseDir games fs rnf selRow input).rescanned = false) ∨
    (∃ full newName, input = some newName ∧ newName ≠ "" ∧
      strEndsWith (strLower newName) ".exe" = true ∧ fs.contains full = true ∧
      (rename_selected_game baseDir games fs rnf selRow input).renamed =
        some (full, pjoin (dirname full) newName) ∧
      (rename_selected_game baseDir games fs rnf selRow input).fs =
        fs.map (fun p => if p = full then pjoin (dirname full) newName else p) ∧
      (rename_selected_game baseDir games fs rnf selRow input).rescanned = true ∧
      ∃ display rest, selRow = some display ∧
        games.filter (fun p =>
          relpath p baseDir == display || basename p == basename display) =
          full :: rest) := by
  cases selRow with
  | none => exact Or.inl ⟨rfl, rfl, rfl⟩
  | some display =>
      cases hmatch : games.filter (fun p =>
          relpath p baseDir == display || basename p == basename display) with
      | nil =>
          simp only [rename_selected_game, hmatch]
          exact Or.inl ⟨trivial, trivial, trivial⟩
      | cons full rest =>
          simp only [rename_selected_game, hmatch]
          by_cases hfull : full = "" ∨ fs.contains full = false
          · rw [if_pos hfull]
            exact Or.inl ⟨rfl, rfl, rfl⟩
          · rw [if_neg hfull]
            cases input with
            | none => exact Or.inl ⟨rfl, rfl, rfl⟩
            | some newName =>
                dsimp only
                by_cases hempty : newName = ""
                · rw [if_pos hempty]
                  exact Or.inl ⟨rfl, rfl, rfl⟩
                · rw [if_neg hempty]
                  cases hext : strEndsWith (strLower newName) ".exe" with
                  | false =>
                      rw [if_pos rfl]
                      exact Or.inl ⟨rfl, rfl, rfl⟩
                  | true =>
                      rw [if_neg (by simp)]
                      have hcont : fs.contains full = true := by
                        rcases Bool.eq_false_or_eq_true (fs.contains full) with ht | hf
                        · exact ht
                        · exact absurd (Or.inr hf) hfull
                      by_cases hrn : rnf full (pjoin (dirname full) newName) = none
                      · rw [show os_rename fs rnf full (pjoin (dirname full) newName) =
                            Except.ok (fs.map (fun p =>
                              if p = full then pjoin (dirname full) newName else p)) by
                          unfold os_rename; rw [if_pos hcont, hrn]]
                        exact Or.inr ⟨full, newName, rfl, hempty, hext, hcont, rfl, rfl, rfl,
                          display, rest, rfl, hmatch⟩
                      · obtain ⟨e, he⟩ := Option.ne_none_iff_exists'.mp hrn
                        rw [show os_rename fs rnf full (pjoin (dirname full) newName) =
                            Except.error e by
                          unfold os_rename; rw [if_pos hcont, he]]
                        exact Or.inl ⟨rfl, rfl, rfl⟩

/-- C4: Every filesystem or process-spawn failure raised during a user action
(upload, launch, play, delete, rename) is caught at that action and surfaced
as a modal error dialog rather than propagating, with no retry; in
particular, in `upload_files` a copy failure for one selected file does not
prevent the remaining selected files from being copied, and the rescan still
runs afterwards. Each action's failure produces its own dialog text
(copy, folder copy, launch, play, delete, rename), and failed delete/rename
actions leave the filesystem unchanged. -/
theorem failures_surface_as_dialogs :
    (∀ gamesDir cf m files src, src ∈ files → cf src = none →
      safe_copy_file src (pjoin gamesDir (basename src)) ∈
        (upload_files gamesDir cf m files).calls) ∧
    (∀ gamesDir cf m files src e, src ∈ files → cf src = some e →
      ("Failed to copy " ++ src ++ ":\n" ++ e) ∈
        (upload_files gamesDir cf m files).dialogs) ∧
    (∀ gamesDir cf m files, files ≠ [] →
      (upload_files gamesDir cf m files).rescanned = true) ∧
    (∀ baseDir existsP e, existsP (modder_path baseDir) = true →
      (launch_modder baseDir existsP (some e)).dialog =
        some ("Failed to launch modder:\n" ++ e)) ∧
    (∀ existsP sf full e, full ≠ "" → existsP full = true → sf full = some e →
      (playTail existsP sf (some full)).dialog =
        some ("Failed to launch game:\n" ++ e)) ∧
    (∀ baseDir games fs rf selRow confirm,
      (delete_selected_game baseDir games fs rf selRow confirm).removed = none →
      (delete_selected_game baseDir games fs rf selRow confirm).fs = fs) ∧
    (∀ baseDir games fs rf display full confirm e,
      resolveDisplay baseDir games (fun p => fs.contains p) display = some full →
      full ≠ "" → confirm = true → os_remove fs rf full = Except.error e →
      (delete_selected_game baseDir games fs rf (some display) confirm).dialog =
        some ("Failed to delete:\n" ++ e) ∧
      (delete_selected_game baseDir games fs rf (some display) confirm).fs = fs) ∧
    (∀ baseDir games fs rnf selRow input,
      (rename_selected_game baseDir games fs rnf selRow input).renamed = none →
      (rename_selected_game baseDir games fs rnf selRow input).fs = fs) ∧
    (∀ gamesDir existsP e src, src ≠ "" →
      (upload_folder gamesDir existsP (some e) src).dialog =
        some ("Failed to copy folder:\n" ++ e) ∧
      (upload_folder gamesDir existsP (some e) src).rescanned = true) ∧
    (∀ baseDir games fs rnf display full rest newName e,
      games.filter (fun p =>
        relpath p baseDir == display || basename p == basename display) = full :: rest →
      ¬(full = "" ∨ fs.contains full = false) →
      newName ≠ "" → strEndsWith (strLower newName) ".exe" = true →
      os_rename fs rnf full (pjoin (dirname full) newName) = Except.error e →
      (rename_selected_game baseDir games fs rnf (some display) (some newName)).dialog =
        some ("Failed to rename:\n" ++ e) ∧
      (rename_selected_game baseDir games fs rnf (some display) (some newName)).fs =
        fs) := by
  refine ⟨?_, ?_, ?_, ?_, ?_, ?_, ?_, ?_, ?_, ?_⟩
  · intro gamesDir cf m files src hmem hcf
    unfold upload_files
    rw [if_neg (by rintro rfl; simp at hmem)]
    exact uploadLoop_calls_mem gamesDir cf files m src hmem hcf
  · intro gamesDir cf m files src e hmem hcf
    unfold upload_files
    rw [if_neg (by rintro rfl; simp at hmem)]
    exact uploadLoop_dialogs_mem gamesDir cf files m src e hmem hcf
  · intro gamesDir cf m files hne
    unfold upload_files
    rw [if_neg hne]
  · intro baseDir existsP e h
    simp only [launch_modder]
    rw [if_pos h]
  · intro existsP sf full e h1 h2 h3
    simp only [playTail]
    rw [if_neg (by simp [h1, h2]), h3]
  · intro baseDir games fs rf selRow confirm h
    rcases delete_cases baseDir games fs rf selRow confirm with ⟨h1, _, _⟩ |
      ⟨full, hrem, _⟩
    · exact h1
    · rw [h] at hrem
      simp at hrem
  · intro baseDir games fs rf display full confirm e hres hfull hconfirm hrem
    subst hconfirm
    simp only [delete_selected_game, hres]
    rw [if_neg hfull, if_pos trivial, hrem]
    exact ⟨rfl, rfl⟩
  · intro baseDir games fs rnf selRow input h
    rcases rename_cases baseDir games fs rnf selRow input with ⟨h1, _, _⟩ |
      ⟨full, nn, _, _, _, _, hr, _⟩
    · exact h1
    · rw [h] at hr
      simp at hr
  · intro gamesDir existsP e src hsrc
    unfold upload_folder
    rw [if_neg hsrc]
    exact ⟨rfl, rfl⟩
  · intro baseDir games fs rnf display full rest newName e hmatch hfull hne hext hren
    simp only [rename_selected_game, hmatch]
    rw [if_neg hfull]
    rw [if_neg hne, if_neg (by simp [hext]), hren]
    exact ⟨rfl, rfl⟩

/-- Witness for C4: with the first of two selected files failing to copy,
the second is still copied. -/
theorem failures_surface_as_dialogs_witness :
    "b" ∈ ["a", "b"] ∧
    (fun s => if s = "a" then some "boom" else none : String → Option String) "b" = none ∧
    safe_copy_file "b" (pjoin "g" (basename "b")) ∈
      (upload_files "g" (fun s => if s = "a" then some "boom" else none)
        (fun _ => none) ["a", "b"]).calls :=
  ⟨by decide, by decide,
    failures_surface_as_dialogs.1 "g" (fun s => if s = "a" then some "boom" else none)
      (fun _ => none) ["a", "b"] "b" (by decide) (by decide)⟩

/-- C6: Uploading copies user selections into the games tree: each selected
file is copied to `games_dir` under its basename, overwriting any existing
file of that name (the destination ends up holding the source's content no
matter what was there), with the destination's parent directory created; an
uploaded folder is copied to `games_dir/basename(normpath src)`, merging
(`dirs_exist_ok`) exactly when the destination already exists; in both cases
a rescan runs afterwards. -/
theorem upload_copy_destinations :
    (∀ gamesDir cf m files c, c ∈ (upload_files gamesDir cf m files).calls →
      c.dst = pjoin gamesDir (basename c.src) ∧ c.mkdirs = dirname c.dst ∧
      cf c.src = none) ∧
    (∀ gamesDir cf m files src, src ∈ files → cf src = none →
      (∀ y ∈ files, ∀ z ∈ files,
        pjoin gamesDir (basename y) = pjoin gamesDir (basename z) → y = z) →
      (∀ y ∈ files, ∀ z ∈ files, pjoin gamesDir (basename y) ≠ z) →
      (upload_files gamesDir cf m files).contents (pjoin gamesDir (basename src)) =
        m src) ∧
    (∀ gamesDir existsP cfail src, src ≠ "" →
      (upload_folder gamesDir existsP cfail src).call =
        some (safe_copy_folder existsP src (pjoin gamesDir (basename (normpath src)))) ∧
      (upload_folder gamesDir existsP cfail src).rescanned = true) ∧
    (∀ existsP src dst, existsP dst = true →
      safe_copy_folder existsP src dst = ⟨src, dst, true⟩) ∧
    (∀ existsP src dst, existsP dst = false →
      safe_copy_folder existsP src dst = ⟨src, dst, false⟩) ∧
    (∀ gamesDir cf m files, files ≠ [] →
      (upload_files gamesDir cf m files).rescanned = true) := by
  refine ⟨?_, ?_, ?_, ?_, ?_, ?_⟩
  · intro gamesDir cf m files c hc
    by_cases hfe : files = []
    · subst hfe
      simp [upload_files] at hc
    · unfold upload_files at hc
      rw [if_neg hfe] at hc
      obtain ⟨src, _, hcf, heq⟩ := uploadLoop_calls_shape gamesDir cf files m c hc
      subst heq
      exact ⟨rfl, rfl, hcf⟩
  · intro gamesDir cf m files src hmem hcf hinj hsep
    unfold upload_files
    rw [if_neg (by rintro rfl; simp at hmem)]
    exact uploadLoop_overwrite gamesDir cf files m src hmem hcf hinj hsep
  · intro gamesDir existsP cfail src hsrc
    unfold upload_folder
    rw [if_neg hsrc]
    cases cfail <;> exact ⟨rfl, rfl⟩
  · intro existsP src dst h
    unfold safe_copy_folder
    rw [if_pos h]
  · intro existsP src dst h
    unfold safe_copy_folder
    rw [if_neg (by simp [h])]
  · intro gamesDir cf m files hne
    unfold upload_files
    rw [if_neg hne]

/-- Witness for C6: uploading `s/a.exe` overwrites the existing
`g/a.exe` ("old") with the source's content ("new"). -/
theorem upload_copy_destinations_witness :
    "s/a.exe" ∈ ["s/a.exe"] ∧
    (upload_files "g" (fun _ => none)
      (fun q => if q = "s/a.exe" then some "new"
        else if q = "g/a.exe" then some "old" else none)
      ["s/a.exe"]).contents (pjoin "g" (basename "s/a.exe")) = some "new" :=
  ⟨by decide,
    Eq.trans
      (upload_copy_destinations.2.1 "g" (fun _ => none)
        (fun q => if q = "s/a.exe" then some "new"
          else if q = "g/a.exe" then some "old" else none)
        ["s/a.exe"] "s/a.exe" (by decide) rfl (by decide) (by decide))
      (by decide)⟩

/-- C7: Deleting a selected game, once confirmed, removes exactly the one
resolved file and then rescans, leaving every other file unchanged; if the
user declines the confirmation, or the selection cannot be resolved, no
filesystem change occurs at all. -/
theorem delete_exactly_one (baseDir : String) (games fs : List String)
    (rf : String → Option String) (selRow : Option String) (confirm : Bool) :
    (∀ full,
      (delete_selected_game baseDir games fs rf selRow confirm).removed = some full →
      full ∈ fs ∧
      (delete_selected_game baseDir games fs rf selRow confirm).fs = fs.erase full ∧
      (delete_selected_game baseDir games fs rf selRow confirm).rescanned = true ∧
      (∀ p, p ≠ full →
        (p ∈ (delete_selected_game baseDir games fs rf selRow confirm).fs ↔ p ∈ fs)) ∧
      ∃ display, selRow = some display ∧
        resolveDisplay baseDir games (fun p => fs.contains p) display = some full) ∧
    (confirm = false →
      (delete_selected_game baseDir games fs rf selRow confirm).fs = fs ∧
      (delete_selected_game baseDir games fs rf selRow confirm).removed = none) ∧
    ((delete_selected_game baseDir games fs rf selRow confirm).removed = none →
      (delete_selected_game baseDir games fs rf selRow confirm).fs = fs) ∧
    (∀ display, selRow = some display →
      resolveDisplay baseDir games (fun p => fs.contains p) display = none →
      (delete_selected_game baseDir games fs rf selRow confirm).fs = fs ∧
      (delete_selected_game baseDir games fs rf selRow confirm).removed = none) := by
  rcases delete_cases baseDir games fs rf selRow confirm with ⟨h1, h2, h3⟩ |
    ⟨full, hrem, hfs, hmem, hres, hconf, hne, display, hsel, hresolve⟩
  · refine ⟨?_, fun _ => ⟨h1, h2⟩, fun _ => h1, fun _ _ _ => ⟨h1, h2⟩⟩
    intro f hf
    rw [h2] at hf
    cases hf
  · refine ⟨?_, ?_, ?_, ?_⟩
    · intro f hf
      rw [hrem] at hf
      cases hf
      refine ⟨hmem, hfs, hres, ?_, display, hsel, hresolve⟩
      intro p hp
      rw [hfs]
      exact List.mem_erase_of_ne hp
    · intro hcf
      rw [hcf] at hconf
      cases hconf
    · intro h
      rw [h] at hrem
      cases hrem
    · intro display2 hsel2 hres2
      rw [hsel2] at hsel
      cases hsel
      rw [hresolve] at hres2
      cases hres2

/-- Witness for C7: confirming deletion of the only game removes exactly
that file. -/
theorem delete_exactly_one_witness :
    (delete_selected_game "b" ["b/games/a.exe"] ["b/games/a.exe"] (fun _ => none)
      (some "games/a.exe") true).removed = some "b/games/a.exe" ∧
    (delete_selected_game "b" ["b/games/a.exe"] ["b/games/a.exe"] (fun _ => none)
      (some "games/a.exe") true).fs = ["b/games/a.exe"].erase "b/games/a.exe" :=
  ⟨by decide,
    ((delete_exactly_one "b" ["b/games/a.exe"] ["b/games/a.exe"] (fun _ => none)
      (some "games/a.exe") true).1 "b/games/a.exe" (by decide)).2.1⟩

/-- C9: `rename_selected_game` performs the rename only when the entered new
name is non-empty and ends, case-insensitively, with ".exe"; every rejected
input (cancelled/empty dialog or wrong extension) leaves the filesystem
unchanged, and the new path is formed in the same directory as the original
file. -/
theorem rename_only_valid_exe (baseDir : String) (games fs : List String)
    (rnf : String → String → Option String) (selRow : Option String)
    (input : Option String) :
    (∀ src dst,
      (rename_selected_game baseDir games fs rnf selRow input).renamed = some (src, dst) →
      ∃ newName, input = some newName ∧ newName ≠ "" ∧
        strEndsWith (strLower newName) ".exe" = true ∧
        dst = pjoin (dirname src) newName) ∧
    (input = none →
      (rename_selected_game baseDir games fs rnf selRow input).renamed = none ∧
      (rename_selected_game baseDir games fs rnf selRow input).fs = fs) ∧
    (input = some "" →
      (rename_selected_game baseDir games fs rnf selRow input).renamed = none ∧
      (rename_selected_game baseDir games fs rnf selRow input).fs = fs) ∧
    (∀ n, input = some n → strEndsWith (strLower n) ".exe" = false →
      (rename_selected_game baseDir games fs rnf selRow input).renamed = none ∧
      (rename_selected_game baseDir games fs rnf selRow input).fs = fs) ∧
    ((rename_selected_game baseDir games fs rnf selRow input).renamed = none →
      (rename_selected_game baseDir games fs rnf selRow input).fs = fs) := by
  rcases rename_cases baseDir games fs rnf selRow input with ⟨h1, h2, h3⟩ |
    ⟨full, newName, hin, hne, hext, hcont, hr, hfs, hres, display, rest, hsel, hmatch⟩
  · refine ⟨?_, fun _ => ⟨h2, h1⟩, fun _ => ⟨h2, h1⟩, fun _ _ _ => ⟨h2, h1⟩, fun _ => h1⟩
    intro src dst hf
    rw [h2] at hf
    cases hf
  · refine ⟨?_, ?_, ?_, ?_, ?_⟩
    · intro src dst hf
      rw [hr] at hf
      cases hf
      exact ⟨newName, hin, hne, hext, rfl⟩
    · intro h
      rw [h] at hin
      cases hin
    · intro h
      rw [h] at hin
      cases hin
      exact absurd rfl hne
    · intro n h hfalse
      rw [h] at hin
      cases hin
      rw [hext] at hfalse
      cases hfalse
    · intro h
      rw [h] at hr
      cases hr

/-- Witness for C9: an entered name without the ".exe" suffix is rejected
with no rename. -/
theorem rename_only_valid_exe_witness :
    strEndsWith (strLower "x.txt") ".exe" = false ∧
    (rename_selected_game "b" ["b/games/a.exe"] ["b/games/a.exe"] (fun _ _ => none)
      (some "games/a.exe") (some "x.txt")).renamed = none :=
  ⟨by decide,
    ((rename_only_valid_exe "b" ["b/games/a.exe"] ["b/games/a.exe"] (fun _ _ => none)
      (some "games/a.exe") (some "x.txt")).2.2.2.1 "x.txt" rfl (by decide)).1⟩

/-- C10: `_get_selected_game` never indexes out of range: it returns `none`
when there is no selection or the selected row index is at least the length
of the games list (e.g. when the placeholder row is selected), and otherwise
returns the games-list element at that index; `play_selected_game` then
reports "Selected game not found." instead of raising. -/
theorem get_selected_game_safe (baseDir : String) (games : List String)
    (sel : List Nat) (existsP : String → Bool) (sf : String → Option String)
    (mr : Option String) :
    (sel = [] → get_selected_game sel games = none) ∧
    (∀ idx rest, sel = idx :: rest → games.length ≤ idx →
      get_selected_game sel games = none) ∧
    (∀ idx rest (h : idx < games.length), sel = idx :: rest →
      get_selected_game sel games = some (games.get ⟨idx, h⟩)) ∧
    (get_selected_game sel games = none →
      play_selected_game baseDir games existsP sf false sel mr =
        { spawn := none, warning := none, dialog := some "Selected game not found." }) := by
  refine ⟨?_, ?_, ?_, ?_⟩
  · intro h
    subst h
    rfl
  · intro idx rest h hle
    subst h
    simp only [get_selected_game]
    rw [dif_neg (Nat.not_lt.mpr hle)]
  · intro idx rest h hsel
    subst hsel
    simp only [get_selected_game]
    rw [dif_pos h]
  · intro h
    show playTail existsP sf (get_selected_game sel games) = _
    rw [h]
    rfl

/-- Witness for C10: selecting row 5 with a single game yields `none` and
the "Selected game not found." dialog. -/
theorem get_selected_game_safe_witness :
    (["g"] : List String).length ≤ 5 ∧
    get_selected_game [5] ["g"] = none ∧
    play_selected_game "b" ["g"] (fun _ => true) (fun _ => none) false [5] none =
      { spawn := none, warning := none, dialog := some "Selected game not found." } := by
  refine ⟨by decide, ?_, ?_⟩
  · exact (get_selected_game_safe "b" ["g"] [5] (fun _ => true) (fun _ => none)
      none).2.1 5 [] rfl (by decide)
  · exact (get_selected_game_safe "b" ["g"] [5] (fun _ => true) (fun _ => none)
      none).2.2.2 ((get_selected_game_safe "b" ["g"] [5] (fun _ => true) (fun _ => none)
      none).2.1 5 [] rfl (by decide))

end Flowlab
